import Mathlib

/-!
Verification of the slack-channel-downloader repository.

Shallow embedding of `src/slack_downloader/{client.py, downloader.py, utils.py}`.
Python dictionaries read with `.get` are modelled as structures with `Option`
fields; Python truthiness of a string value (`None` and `""` are falsy) is made
explicit through `truthyStr`.  The remote transport (Slack Web API) and the
HTTP layer are modelled as function parameters, so every claim quantifies over
the behaviour of the remote side.  Loops whose termination depends on the
remote side (`while True` pagination) take explicit fuel and return `none` when
the fuel runs out.
-/

set_option maxRecDepth 100000

namespace SlackDownloader

/-- Python truthiness for an optional string: `None` and `""` are falsy.
Returns the string exactly when it is present and non-empty. -/
def truthyStr : Option String → Option String
  | none => none
  | some s => if s = "" then none else some s

/-! ### Transport client (`client.py`) -/

/-- Model of `SlackApiException(message, error_code)` from `client.py`. -/
structure SlackApiException where
  message : String
  error_code : Option String
deriving Repr, DecidableEq

/-- The `response_metadata` object of a Slack API page response. -/
structure ResponseMetadata where
  next_cursor : Option String
deriving Repr, DecidableEq

/-- One `conversations_history` response: the `messages` list, the `has_more`
flag (Python truthiness of an absent key collapses to `false`) and the optional
`response_metadata` object. -/
structure HistoryPage (α : Type) where
  messages : List α
  has_more : Bool
  response_metadata : Option ResponseMetadata
deriving Repr, DecidableEq

/-- The request parameters the pagination loop passes to
`conversations_history`: channel id, `limit`, and the optional `cursor`,
`oldest`, `latest` entries (only added to the params dict when truthy). -/
structure HistoryParams where
  channel : String
  limit : Nat
  cursor : Option String
  oldest : Option Int
  latest : Option Int
deriving Repr, DecidableEq

/-- The continuation token as the loop reads it:
`result.get("response_metadata") and result["response_metadata"].get("next_cursor")`.
Present only when the metadata object exists and carries a non-empty cursor. -/
def nextCursor? {α : Type} (p : HistoryPage α) : Option String :=
  match p.response_metadata with
  | none => none
  | some m => truthyStr m.next_cursor

/-- The loop body of `SlackClient.get_channel_history` (lines 115-146 of
`client.py`).  `fetch` models `self._client.conversations_history(**params)`:
it may raise `SlackApiError` (modelled as `.error code` carrying
`e.response["error"]`).  Fuel bounds the number of iterations; `none` means the
fuel ran out with the loop still running. -/
def get_channel_history_loop {α : Type}
    (fetch : HistoryParams → Except String (HistoryPage α))
    (channel_id : String) (oldest_ts newest_ts : Option Int) :
    Nat → Option String → List α → Option (Except String (List α))
  | 0, _, _ => none
  | fuel + 1, cursor, acc =>
    match fetch ⟨channel_id, 1000, cursor, oldest_ts, newest_ts⟩ with
    | .error code => some (.error code)
    | .ok result =>
      if result.messages.isEmpty then
        some (.ok acc)
      else
        let acc2 := acc ++ result.messages
        if result.has_more then
          match nextCursor? result with
          | some c => get_channel_history_loop fetch channel_id oldest_ts newest_ts fuel (some c) acc2
          | none => some (.ok acc2)
        else
          some (.ok acc2)

/-- The `except SlackApiError` classification of
`SlackClient.get_channel_history` (lines 150-162):
`missing_scope` and `channel_not_found` get dedicated messages, anything else a
generic one; the remote error code is always preserved in `error_code`. -/
def classify_history_error (channel_id : String) (code : String) : SlackApiException :=
  if code = "missing_scope" then
    ⟨"Token is missing required scope. Need channels:history or groups:history.", some code⟩
  else if code = "channel_not_found" then
    ⟨"Channel " ++ channel_id ++ " not found or bot does not have access.", some code⟩
  else
    ⟨"Failed to fetch messages: " ++ code, some code⟩

/-- `SlackClient.get_channel_history` (lines 88-162 of `client.py`): run the
pagination loop from an empty accumulator and no cursor, and classify any
remote error, discarding the accumulator.  The date bounds are passed through
as already-converted optional timestamps. -/
def get_channel_history {α : Type}
    (fetch : HistoryParams → Except String (HistoryPage α))
    (channel_id : String) (oldest_ts newest_ts : Option Int) (fuel : Nat) :
    Option (Except SlackApiException (List α)) :=
  match get_channel_history_loop fetch channel_id oldest_ts newest_ts fuel none [] with
  | none => none
  | some (.error code) => some (.error (classify_history_error channel_id code))
  | some (.ok msgs) => some (.ok msgs)

/-! ### User directory (`client.py`, `SlackClient.get_users`) -/

/-- The `profile` sub-dictionary of a `users_list` member. -/
structure Profile where
  real_name : Option String
  display_name : Option String
deriving Repr, DecidableEq

/-- One member record of a `users_list` page, with the fields
`get_users` reads. -/
structure Member where
  id : Option String
  real_name : Option String
  profile : Option Profile
  name : Option String
deriving Repr, DecidableEq

/-- The name-resolution chain of `get_users` (lines 183-189 of `client.py`):
`user.get("real_name") or user.get("profile", {}).get("real_name") or
user.get("profile", {}).get("display_name") or user.get("name", user_id)`.
Python `or` skips falsy values (`None` and `""`); the final
`user.get("name", user_id)` falls back to the user id only when the `name`
key is absent. -/
def resolve_name (user : Member) : Option String :=
  match truthyStr user.real_name with
  | some s => some s
  | none =>
    match truthyStr (user.profile.bind Profile.real_name) with
    | some s => some s
    | none =>
      match truthyStr (user.profile.bind Profile.display_name) with
      | some s => some s
      | none =>
        match user.name with
        | some n => some n
        | none => user.id

/-- One `users_list` response. -/
structure UsersPage where
  members : List Member
  response_metadata : Option ResponseMetadata
deriving Repr, DecidableEq

/-- The continuation check of `get_users` (lines 192-197):
`result.get("response_metadata") and result["response_metadata"].get("next_cursor")`. -/
def usersNextCursor? (p : UsersPage) : Option String :=
  match p.response_metadata with
  | none => none
  | some m => truthyStr m.next_cursor

/-- The loop of `SlackClient.get_users` (lines 174-197).  The map is modelled
as the list of `(user_id, resolved_name)` insertions in processing order
(Python dict assignment: a later insertion with the same key wins). -/
def get_users_loop (fetch : Option String → Except String UsersPage) :
    Nat → Option String → List (Option String × Option String) →
    Option (Except String (List (Option String × Option String)))
  | 0, _, _ => none
  | fuel + 1, cursor, acc =>
    match fetch cursor with
    | .error code => some (.error code)
    | .ok result =>
      let acc2 := acc ++ result.members.map (fun u => (u.id, resolve_name u))
      match usersNextCursor? result with
      | some c => get_users_loop fetch fuel (some c) acc2
      | none => some (.ok acc2)

/-- `SlackClient.get_users` (lines 164-205): paginate the directory, resolving
each member to a display name; any remote error aborts the whole call
(`Failed to fetch users`), discarding already-collected entries. -/
def get_users (fetch : Option String → Except String UsersPage) (fuel : Nat) :
    Option (Except SlackApiException (List (Option String × Option String))) :=
  match get_users_loop fetch fuel none [] with
  | none => none
  | some (.error code) =>
    some (.error ⟨"Failed to fetch users: " ++ code, some code⟩)
  | some (.ok m) => some (.ok m)

/-- Last-insertion-wins reading of the insertion log: the value the Python
dict holds for `k` after all assignments. -/
def dictLookup (log : List (Option String × Option String)) (k : Option String) :
    Option (Option String) :=
  match log.reverse.find? (fun p => p.1 = k) with
  | none => none
  | some p => some p.2

/-! ### File extraction and download (`downloader.py`) -/

/-- The fields of a Slack file-info dictionary that `downloader.py` reads. -/
structure FileInfo where
  url_private_download : Option String
  name : Option String
  filetype : Option String
deriving Repr, DecidableEq

/-- The reasons `DownloadError` is raised in `FileDownloader.download_file`,
in source order: missing/empty URL, missing/empty file name, non-200 status,
HTML content type (login page). -/
inductive DownloadError where
  | noUrl : DownloadError
  | noFilename : DownloadError
  | badStatus : Nat → DownloadError
  | htmlLoginPage : DownloadError
deriving Repr, DecidableEq

/-- An HTTP response as `download_file` inspects it: `response.status_code`
and `response.headers.get("content-type", "")`. -/
structure HttpResponse where
  status_code : Nat
  content_type : Option String
deriving Repr, DecidableEq

/-- Is `pat` a prefix of `l`?  (Character-by-character.) -/
def listStartsWith : List Char → List Char → Bool
  | [], _ => true
  | _ :: _, [] => false
  | a :: as, b :: bs => a = b && listStartsWith as bs

/-- Does `l` contain `pat` as a contiguous substring? -/
def listContainsSub (pat : List Char) : List Char → Bool
  | [] => pat.isEmpty
  | c :: rest => listStartsWith pat (c :: rest) || listContainsSub pat rest

/-- Python `pat in s` substring test. -/
def strContainsSub (s pat : String) : Bool :=
  listContainsSub pat.data s.data

/-- Python `s.lower()` restricted to ASCII case folding, which is all that
matters for locating the ASCII substring `"text/html"` in a content-type
header. -/
def strToLower (s : String) : String :=
  String.mk (s.data.map Char.toLower)

/-- Python `str(n).zfill(width)`: left-pad a decimal rendering with zeros. -/
def zfill (width : Nat) (s : String) : String :=
  if width ≤ s.length then s
  else String.mk (List.replicate (width - s.length) '0') ++ s

/-- `FileDownloader.download_file` (lines 33-87 of `downloader.py`).
`http` models `requests.get` restricted to the URL (token and user-agent
headers are fixed by the instance).  Checks in source order: truthiness of
`url_private_download`, truthiness of `name`, `status_code != 200`,
`"text/html" in content_type.lower()`; on success the file is written under
`download_dir`, with an optional 4-digit zero-filled `file_number` prefix, and
its path returned.  The body streaming itself has no observable value beyond
the returned path, so the model returns the path as a string. -/
def download_file (download_dir : String) (http : String → HttpResponse)
    (file_info : FileInfo) (file_number : Option Nat) :
    Except DownloadError String :=
  match truthyStr file_info.url_private_download with
  | none => .error .noUrl
  | some url =>
    match truthyStr file_info.name with
    | none => .error .noFilename
    | some filename =>
      let response := http url
      if response.status_code ≠ 200 then
        .error (.badStatus response.status_code)
      else if strContainsSub (strToLower (response.content_type.getD "")) "text/html" then
        .error .htmlLoginPage
      else
        match file_number with
        | some n => .ok (download_dir ++ "/" ++ zfill 4 (toString n) ++ "-" ++ filename)
        | none => .ok (download_dir ++ "/" ++ filename)

/-- The batch loop of `FileDownloader.download_files` (lines 108-121),
carrying the running index `i`.  Returns the triple
(successfully downloaded paths, `on_error` invocations, `on_progress`
invocations), each in call order: per item the progress hook is called with
`(filename, i + 1, total)` before the attempt, a `DownloadError` is caught and
logged via the error hook, and a successful path is appended. -/
def download_files_go (download_dir : String) (http : String → HttpResponse)
    (total : Nat) :
    Nat → List FileInfo →
    List String × List (String × DownloadError) × List (String × Nat × Nat)
  | _, [] => ([], [], [])
  | i, file_info :: rest =>
    let filename := file_info.name.getD "unknown"
    let next := download_files_go download_dir http total (i + 1) rest
    match download_file download_dir http file_info (some i) with
    | .ok path => (path :: next.1, next.2.1, (filename, i + 1, total) :: next.2.2)
    | .error e => (next.1, (filename, e) :: next.2.1, (filename, i + 1, total) :: next.2.2)

/-- `FileDownloader.download_files` (lines 89-122): iterate over the files in
input order starting at index 0, with `total = len(files)`. -/
def download_files (download_dir : String) (http : String → HttpResponse)
    (files : List FileInfo) :
    List String × List (String × DownloadError) × List (String × Nat × Nat) :=
  download_files_go download_dir http files.length 0 files

/-- A message as `extract_files_from_messages` reads it: its
`files` list (`message.get("files", [])` collapses an absent key to `[]`). -/
structure MsgRec where
  files : List FileInfo
deriving Repr, DecidableEq

/-- `extract_files_from_messages` (lines 125-148 of `downloader.py`): flatten
the `files` lists over all messages in order, then, when `file_types` is
truthy (non-empty), keep only the files whose `filetype` value is a member of
it (`f.get("filetype") in file_types`, so a missing tag never matches). -/
def extract_files_from_messages (messages : List MsgRec)
    (file_types : List String) : List FileInfo :=
  let all_files := messages.flatMap MsgRec.files
  if file_types.isEmpty then all_files
  else all_files.filter (fun f =>
    match f.filetype with
    | some t => file_types.contains t
    | none => false)

/-! ### Date conversion (`utils.py`, `convert_date_to_ts`)

`datetime.strptime(date_str, "%Y-%m-%d").timestamp()` parses a proleptic
Gregorian calendar date and returns the Unix time of that day's midnight in
the process's local timezone.  The calendar arithmetic below follows Python's
`date.toordinal`; the local timezone is modelled as a fixed offset `tzShift`
added to the day count in seconds (the spec itself flags the local-vs-UTC
choice as an open question, and monotonicity holds for every fixed offset). -/

/-- Gregorian leap-year test. -/
def isLeap (y : Nat) : Bool :=
  (y % 4 == 0 && y % 100 != 0) || y % 400 == 0

/-- Days in month `m` (1-12) of a (non-)leap year. -/
def daysInMonth (leap : Bool) : Nat → Nat
  | 1 => 31
  | 2 => if leap then 29 else 28
  | 3 => 31
  | 4 => 30
  | 5 => 31
  | 6 => 30
  | 7 => 31
  | 8 => 31
  | 9 => 30
  | 10 => 31
  | 11 => 30
  | 12 => 31
  | _ => 0

/-- Days elapsed in the year before month `m` (1-12) begins. -/
def daysBeforeMonth (leap : Bool) : Nat → Nat
  | 1 => 0
  | 2 => 31
  | 3 => 59 + if leap then 1 else 0
  | 4 => 90 + if leap then 1 else 0
  | 5 => 120 + if leap then 1 else 0
  | 6 => 151 + if leap then 1 else 0
  | 7 => 181 + if leap then 1 else 0
  | 8 => 212 + if leap then 1 else 0
  | 9 => 243 + if leap then 1 else 0
  | 10 => 273 + if leap then 1 else 0
  | 11 => 304 + if leap then 1 else 0
  | 12 => 334 + if leap then 1 else 0
  | _ => 0

/-- Days in all years strictly before year `y` (Python
`_days_before_year`): `365*n + n//4 - n//100 + n//400` with `n = y - 1`. -/
def yearDays (y : Nat) : Nat :=
  365 * (y - 1) + (y - 1) / 4 - (y - 1) / 100 + (y - 1) / 400

/-- Python `date(y, m, d).toordinal()`: day number counting 0001-01-01 as 1. -/
def toOrdinal (y m d : Nat) : Nat :=
  yearDays y + daysBeforeMonth (isLeap y) m + d

/-- A calendar date accepted by `datetime`: year at least 1, month 1-12, day
within the month. -/
def validDate (p : Nat × Nat × Nat) : Prop :=
  1 ≤ p.1 ∧ 1 ≤ p.2.1 ∧ p.2.1 ≤ 12 ∧ 1 ≤ p.2.2 ∧
    p.2.2 ≤ daysInMonth (isLeap p.1) p.2.1

instance : DecidablePred validDate := fun p => by
  unfold validDate; infer_instance

/-- Strict calendar order on `(year, month, day)` triples. -/
def dateEarlier (p q : Nat × Nat × Nat) : Prop :=
  p.1 < q.1 ∨ (p.1 = q.1 ∧ (p.2.1 < q.2.1 ∨ (p.2.1 = q.2.1 ∧ p.2.2 < q.2.2)))

instance : DecidableRel dateEarlier := fun p q => by
  unfold dateEarlier; infer_instance

/-- Split a character list at every `-`, keeping empty groups, like Python
`s.split("-")`. -/
def splitOnDash : List Char → List (List Char)
  | [] => [[]]
  | '-' :: rest => [] :: splitOnDash rest
  | c :: rest =>
    match splitOnDash rest with
    | [] => [[c]]
    | g :: gs => (c :: g) :: gs

/-- A decimal digit. -/
def isDigitChar (c : Char) : Bool := '0' ≤ c && c ≤ '9'

/-- Read a non-empty all-digit group as a decimal number. -/
def digitsToNat? (l : List Char) : Option Nat :=
  if l ≠ [] ∧ l.all isDigitChar then
    some (l.foldl (fun acc c => 10 * acc + (c.toNat - 48)) 0)
  else none

/-- `datetime.strptime(s, "%Y-%m-%d")`: split on the literal dashes, read up
to 4 digits of year and up to 2 of month and day, and validate the calendar
date (`datetime` accepts years 1-9999).  `none` models the `ValueError`
`strptime` raises on any mismatch. -/
def parseDate (s : String) : Option (Nat × Nat × Nat) :=
  match splitOnDash s.data with
  | [ys, ms, ds] =>
    if ys.length ≤ 4 ∧ ms.length ≤ 2 ∧ ds.length ≤ 2 then
      match digitsToNat? ys, digitsToNat? ms, digitsToNat? ds with
      | some y, some m, some d =>
        if validDate (y, m, d) ∧ y ≤ 9999 then some (y, m, d) else none
      | _, _, _ => none
    else none
  | _ => none

/-- The Unix timestamp (seconds) of local midnight of a date, with the local
timezone modelled by the fixed shift `tzShift`; `719163` is
`date(1970, 1, 1).toordinal()`. -/
def dateTimestamp (tzShift : Int) (y m d : Nat) : Int :=
  ((toOrdinal y m d : Int) - 719163) * 86400 + tzShift

/-- `convert_date_to_ts` (lines 9-21 of `utils.py`): `None` and `""` are
returned as `None` (outer `some none`); an unparsable string raises
`ValueError` (outer `none`); otherwise the local-midnight Unix timestamp. -/
def convert_date_to_ts (tzShift : Int) : Option String → Option (Option Int)
  | none => some none
  | some s =>
    if s = "" then some none
    else
      match parseDate s with
      | none => none
      | some (y, m, d) => some (some (dateTimestamp tzShift y m d))

/-! ### Mention substitution (`utils.py`, `replace_mentions_with_names`) -/

/-- A character the mention regex class `[A-Z0-9]` accepts. -/
def isMentionChar (c : Char) : Bool :=
  ('A' ≤ c && c ≤ 'Z') || ('0' ≤ c && c ≤ '9')

/-- `re.findall(r"<@([A-Z0-9]+)>", text)`: scan left to right; at `<@` take
the maximal non-empty run of `[A-Z0-9]` characters and require a closing `>`
(the character after a maximal run is never in the class, so the greedy match
never backtracks).  `findall` continues scanning after each non-overlapping
match; here the scan resumes just after the `<@` instead, which yields the
same matches — the interior `RUN>` of a match contains no `<`, so no match can
start before the old continuation point — and keeps the recursion structural. -/
def findMentions : List Char → List String
  | [] => []
  | '<' :: '@' :: rest2 =>
    match rest2.dropWhile isMentionChar with
    | '>' :: _ =>
      if (rest2.takeWhile isMentionChar).isEmpty then
        findMentions ('@' :: rest2)
      else
        String.mk (rest2.takeWhile isMentionChar) :: findMentions rest2
    | _ => findMentions ('@' :: rest2)
  | _ :: rest => findMentions rest

/-- The scan of Python `text.replace(old, new)` with explicit fuel (one unit
per position, always enough when the fuel starts at the list length, since a
skip consumes at least one position): if the pattern starts here, emit the
replacement and skip past the occurrence, else keep the character and
advance. -/
def replaceAllAux (pat rep : List Char) : Nat → List Char → List Char
  | 0, l => l
  | _, [] => []
  | fuel + 1, c :: rest =>
    if pat ≠ [] ∧ pat.isPrefixOf (c :: rest) then
      rep ++ replaceAllAux pat rep fuel ((c :: rest).drop pat.length)
    else
      c :: replaceAllAux pat rep fuel rest

/-- Python `text.replace(old, new)` on character lists, for a non-empty
pattern: replace every non-overlapping occurrence left to right. -/
def replaceAllL (pat rep l : List Char) : List Char :=
  replaceAllAux pat rep l.length l

/-- First-match association-list lookup, modelling `user_id in user_map` /
`user_map[user_id]` for a dict with unique keys. -/
def lookupName (user_map : List (String × String)) (uid : String) : Option String :=
  match user_map.find? (fun p => p.1 = uid) with
  | none => none
  | some p => some p.2

/-- `replace_mentions_with_names` (lines 24-41 of `utils.py`): collect all
regex matches first, then for each matched id present in the map replace
every occurrence of `<@id>` in the current text by `@name`. -/
def replace_mentions_with_names (text : String) (user_map : List (String × String)) :
    String :=
  (findMentions text.data).foldl
    (fun t uid =>
      match lookupName user_map uid with
      | some real_name =>
        String.mk (replaceAllL ("<@" ++ uid ++ ">").data ("@" ++ real_name).data t.data)
      | none => t)
    text

/-! ## Theorems -/

/-! ### C1: pagination of `get_channel_history` -/

/-- Mocked transport for the pagination-termination scenario: pages of sizes
1000, 1000, 437, 0, with `has_more` and a next cursor on all but the last. -/
def c1MockFetch : HistoryParams → Except String (HistoryPage Nat) := fun p =>
  match p.cursor with
  | none => .ok ⟨List.range 1000, true, some ⟨some "c1"⟩⟩
  | some "c1" => .ok ⟨(List.range 1000).map (1000 + ·), true, some ⟨some "c2"⟩⟩
  | some "c2" => .ok ⟨(List.range 437).map (2000 + ·), true, some ⟨some "c3"⟩⟩
  | some "c3" => .ok ⟨[], false, none⟩
  | _ => .error "unexpected_cursor"

/-- A server that reports `has_more` but omits the continuation token. -/
def c1MalformedFetch : HistoryParams → Except String (HistoryPage Nat) := fun _ =>
  .ok ⟨[5], true, none⟩

/-- C1: `get_channel_history` concatenates the fetched pages in arrival order,
requesting pages with `limit = 1000` and threading the previous page's cursor;
it stops on an empty page, and a page with `has_more` but no continuation
token (or no `has_more`) ends pagination with the messages fetched so far.  On
the mocked transport with page sizes `[1000, 1000, 437, 0]` it returns exactly
the 2437 messages of the first three pages. -/
theorem claim_C1_pagination :
    (∀ channel_id oldest newest,
      get_channel_history c1MockFetch channel_id oldest newest 10 =
        some (.ok (List.range 2437)) ∧ (List.range 2437).length = 2437) ∧
    (∀ (α : Type) (fetch : HistoryParams → Except String (HistoryPage α))
        channel_id oldest newest fuel page,
      fetch ⟨channel_id, 1000, none, oldest, newest⟩ = .ok page →
      page.messages ≠ [] → page.has_more = true → nextCursor? page = none →
      get_channel_history fetch channel_id oldest newest (fuel + 1) =
        some (.ok page.messages)) ∧
    (∀ (α : Type) (fetch : HistoryParams → Except String (HistoryPage α))
        channel_id oldest newest fuel page,
      fetch ⟨channel_id, 1000, none, oldest, newest⟩ = .ok page →
      page.messages = [] →
      get_channel_history fetch channel_id oldest newest (fuel + 1) =
        some (.ok [])) ∧
    (∀ (α : Type) (fetch : HistoryParams → Except String (HistoryPage α))
        channel_id oldest newest fuel page c,
      fetch ⟨channel_id, 1000, none, oldest, newest⟩ = .ok page →
      page.messages ≠ [] → page.has_more = true → nextCursor? page = some c →
      get_channel_history_loop fetch channel_id oldest newest (fuel + 1) none [] =
        get_channel_history_loop fetch channel_id oldest newest fuel (some c)
          page.messages) := by
  refine ⟨?_, ?_, ?_, ?_⟩
  · intro channel_id oldest newest
    refine ⟨?_, by simp⟩
    unfold get_channel_history
    have h0 : get_channel_history_loop c1MockFetch channel_id oldest newest 10 none [] =
        some (.ok ((([] ++ List.range 1000) ++ (List.range 1000).map (1000 + ·)) ++
          (List.range 437).map (2000 + ·))) := by
      simp [get_channel_history_loop, c1MockFetch, nextCursor?, truthyStr,
        List.isEmpty_iff, List.range_eq_nil]
    rw [h0]
    have h1 : List.range 2437 =
        (List.range 1000 ++ (List.range 1000).map (1000 + ·)) ++
          (List.range 437).map (2000 + ·) := by
      rw [show (2437 : Nat) = 2000 + 437 by norm_num, List.range_add,
        show (2000 : Nat) = 1000 + 1000 by norm_num, List.range_add]
    simp [h1]
  · intro α fetch channel_id oldest newest fuel page hf hne hm hc
    unfold get_channel_history get_channel_history_loop
    rw [hf]
    simp [List.isEmpty_iff, hne, hm, hc]
  · intro α fetch channel_id oldest newest fuel page hf he
    unfold get_channel_history get_channel_history_loop
    rw [hf]
    simp [List.isEmpty_iff, he]
  · intro α fetch channel_id oldest newest fuel page c hf hne hm hc
    conv_lhs => unfold get_channel_history_loop
    rw [hf]
    simp [List.isEmpty_iff, hne, hm, hc]

/-- C1 witness: the malformed-server clause applied to a concrete transport
whose single page reports `has_more` without a token. -/
theorem claim_C1_pagination_witness :
    get_channel_history c1MalformedFetch "C042" none none 3 =
      some (.ok [5]) :=
  claim_C1_pagination.2.1 Nat c1MalformedFetch "C042" none none 2
    ⟨[5], true, none⟩ rfl (by simp) rfl rfl

/-! ### C5: remote errors abort `get_channel_history` with a classified
exception and discard partial results -/

/-- A transport whose first page succeeds (with a cursor) and whose second
call fails with `missing_scope`. -/
def c5MockFetch : HistoryParams → Except String (HistoryPage Nat) := fun p =>
  match p.cursor with
  | none => .ok ⟨[1, 2], true, some ⟨some "c1"⟩⟩
  | some _ => .error "missing_scope"

/-- C5: if any fetch inside the pagination loop fails, the loop stops with
that error no matter what was already accumulated, `get_channel_history` turns
it into the classified `SlackApiException` (`missing_scope` and
`channel_not_found` get their dedicated messages, anything else the generic
one, the remote code always kept in `error_code`), and no messages are
returned; on a transport whose second page fails after a successful first
page, the already-fetched messages are discarded. -/
theorem claim_C5_error_abort :
    (∀ (α : Type) (fetch : HistoryParams → Except String (HistoryPage α))
        channel_id oldest newest fuel cursor acc code,
      fetch ⟨channel_id, 1000, cursor, oldest, newest⟩ = .error code →
      get_channel_history_loop fetch channel_id oldest newest (fuel + 1) cursor acc =
        some (.error code)) ∧
    (∀ (α : Type) (fetch : HistoryParams → Except String (HistoryPage α))
        channel_id oldest newest fuel code,
      get_channel_history_loop fetch channel_id oldest newest fuel none [] =
        some (.error code) →
      get_channel_history fetch channel_id oldest newest fuel =
        some (.error (classify_history_error channel_id code))) ∧
    (∀ channel_id, classify_history_error channel_id "missing_scope" =
      ⟨"Token is missing required scope. Need channels:history or groups:history.",
        some "missing_scope"⟩) ∧
    (∀ channel_id, classify_history_error channel_id "channel_not_found" =
      ⟨"Channel " ++ channel_id ++ " not found or bot does not have access.",
        some "channel_not_found"⟩) ∧
    (∀ channel_id code, code ≠ "missing_scope" → code ≠ "channel_not_found" →
      classify_history_error channel_id code =
        ⟨"Failed to fetch messages: " ++ code, some code⟩) ∧
    (get_channel_history c5MockFetch "C1" none none 10 =
      some (.error (classify_history_error "C1" "missing_scope"))) := by
  refine ⟨?_, ?_, fun _ => rfl, fun _ => rfl, ?_, rfl⟩
  · intro α fetch channel_id oldest newest fuel cursor acc code hf
    unfold get_channel_history_loop
    rw [hf]
  · intro α fetch channel_id oldest newest fuel code h
    unfold get_channel_history
    rw [h]
  · intro channel_id code h1 h2
    unfold classify_history_error
    simp [h1, h2]

/-- C5 witness: the abort clause applied to a transport that always fails,
from a loop state that has already accumulated a message. -/
theorem claim_C5_error_abort_witness :
    get_channel_history_loop (fun _ => (.error "boom" : Except String (HistoryPage Nat)))
      "C9" none none 3 none [7] = some (.error "boom") :=
  claim_C5_error_abort.1 Nat (fun _ => .error "boom") "C9" none none 2 none [7] "boom" rfl

/-! ### C3: user display-name resolution priority in `get_users` -/

/-- C3: `get_users` resolves each directory entry by the priority
real name → profile real name → profile display name → handle → the user id
itself, and every entry of the resulting mapping is `(id, resolve_name user)`;
in particular an entry with only a profile `display_name` resolves to it, and
an entry with both `real_name` and `display_name` resolves to `real_name`. -/
theorem claim_C3_name_resolution :
    (∀ (user : Member) (s : String),
      truthyStr user.real_name = some s → resolve_name user = some s) ∧
    (∀ (user : Member) (s : String),
      truthyStr user.real_name = none →
      truthyStr (user.profile.bind Profile.real_name) = some s →
      resolve_name user = some s) ∧
    (∀ (user : Member) (s : String),
      truthyStr user.real_name = none →
      truthyStr (user.profile.bind Profile.real_name) = none →
      truthyStr (user.profile.bind Profile.display_name) = some s →
      resolve_name user = some s) ∧
    (∀ (user : Member) (n : String),
      truthyStr user.real_name = none →
      truthyStr (user.profile.bind Profile.real_name) = none →
      truthyStr (user.profile.bind Profile.display_name) = none →
      user.name = some n → resolve_name user = some n) ∧
    (∀ user : Member,
      truthyStr user.real_name = none →
      truthyStr (user.profile.bind Profile.real_name) = none →
      truthyStr (user.profile.bind Profile.display_name) = none →
      user.name = none → resolve_name user = user.id) ∧
    (∀ (fetch : Option String → Except String UsersPage) fuel page,
      fetch none = .ok page → usersNextCursor? page = none →
      get_users fetch (fuel + 1) =
        some (.ok (page.members.map (fun u => (u.id, resolve_name u))))) ∧
    (∀ uid dn, dn ≠ "" →
      resolve_name ⟨some uid, none, some ⟨none, some dn⟩, none⟩ = some dn) ∧
    (∀ uid rn dn, rn ≠ "" →
      resolve_name ⟨some uid, some rn, some ⟨none, some dn⟩, none⟩ = some rn) := by
  refine ⟨?_, ?_, ?_, ?_, ?_, ?_, ?_, ?_⟩
  · intro user s h1
    unfold resolve_name
    rw [h1]
  · intro user s h1 h2
    unfold resolve_name
    rw [h1, h2]
  · intro user s h1 h2 h3
    unfold resolve_name
    rw [h1, h2, h3]
  · intro user n h1 h2 h3 h4
    unfold resolve_name
    rw [h1, h2, h3, h4]
  · intro user h1 h2 h3 h4
    unfold resolve_name
    rw [h1, h2, h3, h4]
  · intro fetch fuel page hf hc
    unfold get_users get_users_loop
    rw [hf]
    simp [hc]
  · intro uid dn h
    simp [resolve_name, truthyStr, h]
  · intro uid rn dn h
    simp [resolve_name, truthyStr, h]

/-- C3 witness: the display-name-only and real-name-priority clauses at
concrete entries, and the single-page directory clause on a concrete page. -/
theorem claim_C3_name_resolution_witness :
    resolve_name ⟨some "U1", none, some ⟨none, some "Dee"⟩, none⟩ = some "Dee" ∧
    resolve_name ⟨some "U2", some "Rae", some ⟨none, some "Dee"⟩, none⟩ = some "Rae" ∧
    get_users (fun _ => .ok ⟨[⟨some "U1", none, some ⟨none, some "Dee"⟩, none⟩], none⟩) 5 =
      some (.ok [(some "U1", some "Dee")]) :=
  ⟨claim_C3_name_resolution.2.2.2.2.2.2.1 "U1" "Dee" (by decide),
   claim_C3_name_resolution.2.2.2.2.2.2.2 "U2" "Rae" "Dee" (by decide),
   claim_C3_name_resolution.2.2.2.2.2.1
     (fun _ => .ok ⟨[⟨some "U1", none, some ⟨none, some "Dee"⟩, none⟩], none⟩) 4
     ⟨[⟨some "U1", none, some ⟨none, some "Dee"⟩, none⟩], none⟩ rfl rfl⟩

/-! ### C4: `download_file` failure conditions -/

/-- C4: `download_file` fails with `DownloadError` when the download URL or
the file name is missing or empty — independently of the HTTP layer, i.e.
before any network request — when the response status is not 200, or when the
declared content type contains `text/html` case-insensitively even with
status 200; otherwise it returns the path the body is written to.  In
particular a 200 response typed `text/html; charset=utf-8` is an error. -/
theorem claim_C4_download_file_errors :
    (∀ download_dir (http : String → HttpResponse) file_info file_number,
      truthyStr file_info.url_private_download = none →
      download_file download_dir http file_info file_number = .error .noUrl) ∧
    (∀ download_dir (http : String → HttpResponse) file_info file_number url,
      truthyStr file_info.url_private_download = some url →
      truthyStr file_info.name = none →
      download_file download_dir http file_info file_number = .error .noFilename) ∧
    (∀ download_dir (http : String → HttpResponse) file_info file_number url fname,
      truthyStr file_info.url_private_download = some url →
      truthyStr file_info.name = some fname →
      (http url).status_code ≠ 200 →
      download_file download_dir http file_info file_number =
        .error (.badStatus (http url).status_code)) ∧
    (∀ download_dir (http : String → HttpResponse) file_info file_number url fname,
      truthyStr file_info.url_private_download = some url →
      truthyStr file_info.name = some fname →
      (http url).status_code = 200 →
      strContainsSub (strToLower ((http url).content_type.getD "")) "text/html" = true →
      download_file download_dir http file_info file_number = .error .htmlLoginPage) ∧
    (∀ download_dir (http : String → HttpResponse) file_info n url fname,
      truthyStr file_info.url_private_download = some url →
      truthyStr file_info.name = some fname →
      (http url).status_code = 200 →
      strContainsSub (strToLower ((http url).content_type.getD "")) "text/html" = false →
      download_file download_dir http file_info (some n) =
        .ok (download_dir ++ "/" ++ zfill 4 (toString n) ++ "-" ++ fname)) ∧
    (download_file "dl" (fun _ => ⟨200, some "text/html; charset=utf-8"⟩)
      ⟨some "u", some "f.pdf", none⟩ none = .error .htmlLoginPage) := by
  refine ⟨?_, ?_, ?_, ?_, ?_, rfl⟩
  · intro download_dir http file_info file_number h1
    unfold download_file
    rw [h1]
  · intro download_dir http file_info file_number url h1 h2
    unfold download_file
    rw [h1, h2]
  · intro download_dir http file_info file_number url fname h1 h2 h3
    unfold download_file
    rw [h1, h2]
    simp [h3]
  · intro download_dir http file_info file_number url fname h1 h2 h3 h4
    unfold download_file
    rw [h1, h2]
    simp [h3, h4]
  · intro download_dir http file_info n url fname h1 h2 h3 h4
    unfold download_file
    rw [h1, h2]
    simp [h3, h4]

/-- C4 witness: the no-URL and HTML-detection clauses at concrete inputs. -/
theorem claim_C4_download_file_errors_witness :
    download_file "dl" (fun _ => ⟨200, some "application/pdf"⟩) ⟨some "", some "f", none⟩
      none = .error .noUrl ∧
    download_file "dl" (fun _ => ⟨200, some "Text/HTML"⟩) ⟨some "u", some "f", none⟩
      none = .error .htmlLoginPage :=
  ⟨claim_C4_download_file_errors.1 "dl" (fun _ => ⟨200, some "application/pdf"⟩)
      ⟨some "", some "f", none⟩ none rfl,
   claim_C4_download_file_errors.2.2.2.1 "dl" (fun _ => ⟨200, some "Text/HTML"⟩)
      ⟨some "u", some "f", none⟩ none "u" "f" rfl rfl rfl (by decide)⟩

/-! ### C2 and C10: `download_files` batch behaviour -/

/-- Closed form of the batch loop: pairing each file with its index from `i`,
the paths are the successful attempts, the error-hook log has exactly one
entry per failing attempt, and the progress-hook log reports one-based
positions. -/
theorem download_files_go_spec (download_dir : String) (http : String → HttpResponse)
    (total : Nat) (files : List FileInfo) :
    ∀ i : Nat,
      download_files_go download_dir http total i files =
        ((files.enumFrom i).filterMap
            (fun p => (download_file download_dir http p.2 (some p.1)).toOption),
         (files.enumFrom i).filterMap
            (fun p => match download_file download_dir http p.2 (some p.1) with
              | .error e => some (p.2.name.getD "unknown", e)
              | .ok _ => none),
         (files.enumFrom i).map
            (fun p => (p.2.name.getD "unknown", p.1 + 1, total))) := by
  induction files with
  | nil => intro i; rfl
  | cons f rest ih =>
    intro i
    simp only [download_files_go, List.enumFrom, List.filterMap_cons, List.map_cons, ih (i + 1)]
    cases h : download_file download_dir http f (some i) <;>
      simp [h, Except.toOption]

/-- Mocked HTTP layer for the batch scenario: the second URL returns a 500,
every other URL succeeds with a PDF content type. -/
def c2Http : String → HttpResponse := fun u =>
  if u = "u2" then ⟨500, some "application/json"⟩ else ⟨200, some "application/pdf"⟩

/-- First, second and third descriptors of the batch scenario. -/
def c2f1 : FileInfo := ⟨some "u1", some "a.pdf", some "pdf"⟩

def c2f2 : FileInfo := ⟨some "u2", some "b.pdf", some "pdf"⟩

def c2f3 : FileInfo := ⟨some "u3", some "c.pdf", some "pdf"⟩

/-- C2: `download_files` iterates in input order, returns exactly the paths of
the successful downloads in attempt order, and the error hook is invoked
exactly once per failing item (a failure never aborts the batch); for three
descriptors where only the second fails, it returns the first and third paths
and logs exactly one error. -/
theorem claim_C2_batch_isolation :
    (∀ download_dir (http : String → HttpResponse) files,
      (download_files download_dir http files).1 =
        files.enum.filterMap
          (fun p => (download_file download_dir http p.2 (some p.1)).toOption)) ∧
    (∀ download_dir (http : String → HttpResponse) files,
      (download_files download_dir http files).2.1 =
        files.enum.filterMap
          (fun p => match download_file download_dir http p.2 (some p.1) with
            | .error e => some (p.2.name.getD "unknown", e)
            | .ok _ => none)) ∧
    (download_files "dl" c2Http [c2f1, c2f2, c2f3] =
      (["dl/0000-a.pdf", "dl/0002-c.pdf"],
       [("b.pdf", .badStatus 500)],
       [("a.pdf", 1, 3), ("b.pdf", 2, 3), ("c.pdf", 3, 3)])) := by
  refine ⟨?_, ?_, rfl⟩
  · intro download_dir http files
    rw [download_files, download_files_go_spec]
    rfl
  · intro download_dir http files
    rw [download_files, download_files_go_spec]
    rfl

/-- C10: the progress hook reports one-based positions (`(name, i + 1, total)`
for the file at zero-based index `i`) while the on-disk name of the same
descriptor is prefixed with the zero-based index, zero-filled to four digits —
so for every descriptor the two numbers differ by one; a successful single
file is saved as `0000-…` while its progress call reports position 1 of 1. -/
theorem claim_C10_index_offset :
    (∀ download_dir (http : String → HttpResponse) files,
      (download_files download_dir http files).2.2 =
        files.enum.map
          (fun p => (p.2.name.getD "unknown", p.1 + 1, files.length))) ∧
    (∀ download_dir (http : String → HttpResponse) file_info i path,
      download_file download_dir http file_info (some i) = .ok path →
      ∃ fname, truthyStr file_info.name = some fname ∧
        path = download_dir ++ "/" ++ zfill 4 (toString i) ++ "-" ++ fname) ∧
    (download_files "dl" c2Http [c2f1] =
      (["dl/0000-a.pdf"], [], [("a.pdf", 1, 1)])) := by
  refine ⟨?_, ?_, rfl⟩
  · intro download_dir http files
    rw [download_files, download_files_go_spec]
    rfl
  · intro download_dir http file_info i path h
    unfold download_file at h
    cases h1 : truthyStr file_info.url_private_download with
    | none => rw [h1] at h; exact absurd h (by simp)
    | some url =>
      rw [h1] at h
      cases h2 : truthyStr file_info.name with
      | none => rw [h2] at h; exact absurd h (by simp)
      | some fname =>
        rw [h2] at h
        simp only [ne_eq, ite_not] at h
        split_ifs at h with h3 h4
        exact ⟨fname, rfl, (Except.ok.inj h).symm⟩

/-- C10 witness: the path-shape clause applied to a concrete successful
download at index 0. -/
theorem claim_C10_index_offset_witness :
    ∃ fname, truthyStr c2f1.name = some fname ∧
      "dl/0000-a.pdf" = "dl" ++ "/" ++ zfill 4 (toString 0) ++ "-" ++ fname :=
  claim_C10_index_offset.2.1 "dl" c2Http c2f1 0 "dl/0000-a.pdf" rfl

/-! ### C6: `extract_files_from_messages` flattening and type filter -/

/-- C6: extraction flattens the attachment lists preserving message order then
attachment order; a non-empty `file_types` keeps exactly the descriptors whose
type tag is a member of it, by exact case-sensitive string equality, so
filtering on `["pdf"]` drops a `"PDF"`-tagged attachment. -/
theorem claim_C6_extract_files :
    (∀ messages : List MsgRec,
      extract_files_from_messages messages [] = messages.flatMap MsgRec.files) ∧
    (∀ (messages : List MsgRec) (file_types : List String), file_types ≠ [] →
      extract_files_from_messages messages file_types =
        (messages.flatMap MsgRec.files).filter (fun f =>
          match f.filetype with
          | some t => file_types.contains t
          | none => false)) ∧
    (extract_files_from_messages
        [⟨[⟨some "u1", some "a", some "pdf"⟩, ⟨some "u2", some "b", some "PDF"⟩]⟩]
        ["pdf"] =
      [⟨some "u1", some "a", some "pdf"⟩]) := by
  refine ⟨fun messages => rfl, ?_, rfl⟩
  intro messages file_types h
  unfold extract_files_from_messages
  simp [List.isEmpty_iff, h]

/-- C6 witness: the non-empty-filter clause on a concrete message list. -/
theorem claim_C6_extract_files_witness :
    extract_files_from_messages [⟨[⟨some "u", some "a", some "png"⟩]⟩] ["pdf", "png"] =
      ([⟨[⟨some "u", some "a", some "png"⟩]⟩].flatMap MsgRec.files).filter (fun f =>
        match f.filetype with
        | some t => ["pdf", "png"].contains t
        | none => false) :=
  claim_C6_extract_files.2.1 [⟨[⟨some "u", some "a", some "png"⟩]⟩] ["pdf", "png"]
    (by decide)

/-! ### C8 and C9: mention substitution -/

/-- Folding the substitution step over ids that are all absent from the map
leaves the text unchanged. -/
theorem replace_fold_absent (user_map : List (String × String)) :
    ∀ (l : List String) (t : String),
      (∀ uid ∈ l, lookupName user_map uid = none) →
      l.foldl
        (fun t uid =>
          match lookupName user_map uid with
          | some real_name =>
            String.mk (replaceAllL ("<@" ++ uid ++ ">").data ("@" ++ real_name).data t.data)
          | none => t)
        t = t := by
  intro l
  induction l with
  | nil => intro t _; rfl
  | cons a l ih =>
    intro t h
    have ha : lookupName user_map a = none := h a (by simp)
    have hrest : ∀ uid ∈ l, lookupName user_map uid = none :=
      fun uid hm => h uid (by simp [hm])
    simp only [List.foldl_cons, ha]
    exact ih t hrest

/-- Replacing a non-empty pattern inside exactly the pattern itself yields the
replacement. -/
theorem replaceAllL_self (pat rep : List Char) (hne : pat ≠ []) :
    replaceAllL pat rep pat = rep := by
  cases pat with
  | nil => exact absurd rfl hne
  | cons c cs =>
    show replaceAllAux (c :: cs) rep (cs.length + 1) (c :: cs) = rep
    have hpre : (c :: cs).isPrefixOf (c :: cs) = true := by
      rw [List.isPrefixOf_iff_prefix]
    unfold replaceAllAux
    rw [if_pos ⟨hne, hpre⟩, List.drop_length]
    cases cs.length <;> simp [replaceAllAux]

/-- Unfolding of the scanner at a `<@` position. -/
theorem findMentions_eq_match (rest2 : List Char) :
    findMentions ('<' :: '@' :: rest2) =
      match rest2.dropWhile isMentionChar with
      | '>' :: _ =>
        if (rest2.takeWhile isMentionChar).isEmpty then findMentions ('@' :: rest2)
        else String.mk (rest2.takeWhile isMentionChar) :: findMentions rest2
      | _ => findMentions ('@' :: rest2) := rfl

/-- A position that does not start a `<@` advances the scan by one
character. -/
theorem findMentions_cons_ne (head : Char) (rest : List Char)
    (hx : ∀ rest2, head = '<' → rest = '@' :: rest2 → False) :
    findMentions (head :: rest) = findMentions rest := by
  conv_lhs => unfold findMentions
  split
  · rename_i heq
    simp at heq
  · rename_i heq
    injection heq with h1 h2
    exact (hx _ h1 h2).elim
  · rename_i hx2 heq
    injection heq with h1 h2
    rw [← h2]

/-- A list without `<` yields no mentions. -/
theorem findMentions_no_open : ∀ l : List Char, (∀ c ∈ l, c ≠ '<') →
    findMentions l = [] := by
  intro l
  induction l with
  | nil => intro _; rfl
  | cons c rest ih =>
    intro h
    have hc : c ≠ '<' := h c (by simp)
    have hrest : ∀ a ∈ rest, a ≠ '<' := fun a ha => h a (by simp [ha])
    rw [findMentions_cons_ne c rest (fun _ h1 _ => hc h1)]
    exact ih hrest

/-- The scanner finds exactly the one mention in `<@uid>` when `uid` is a
non-empty run of `[A-Z0-9]` characters. -/
theorem findMentions_single (uid : String) (hne : uid.data ≠ [])
    (hall : ∀ c ∈ uid.data, isMentionChar c) :
    findMentions ('<' :: '@' :: (uid.data ++ ['>'])) = [uid] := by
  have htake : (uid.data ++ ['>']).takeWhile isMentionChar = uid.data := by
    rw [List.takeWhile_append_of_pos hall]
    simp [List.takeWhile, isMentionChar]
  have hdrop : (uid.data ++ ['>']).dropWhile isMentionChar = ['>'] := by
    rw [List.dropWhile_append_of_pos hall]
    simp [List.dropWhile, isMentionChar]
  have hrest : findMentions (uid.data ++ ['>']) = [] := by
    refine findMentions_no_open _ fun c hc => ?_
    rcases List.mem_append.mp hc with h | h
    · intro hlt
      have := hall c h
      rw [hlt] at this
      simp [isMentionChar] at this
    · simp only [List.mem_singleton] at h
      rw [h]
      decide
  have hstep : findMentions ('<' :: '@' :: (uid.data ++ ['>'])) =
      match (uid.data ++ ['>']).dropWhile isMentionChar with
      | '>' :: _ =>
        if ((uid.data ++ ['>']).takeWhile isMentionChar).isEmpty then
          findMentions ('@' :: (uid.data ++ ['>']))
        else
          String.mk ((uid.data ++ ['>']).takeWhile isMentionChar) ::
            findMentions (uid.data ++ ['>'])
      | _ => findMentions ('@' :: (uid.data ++ ['>'])) := rfl
  rw [hstep, hdrop]
  simp only [htake, List.isEmpty_iff, hne, if_neg, hrest]
  obtain ⟨d⟩ := uid
  simp

/-- C8: substitution replaces a known mention `<@uid>` by `@name` and leaves
the text untouched when no found mention is a key of the map; concretely,
`"<@U123> hi <@U999>"` with `U123 ↦ Alice` becomes `"@Alice hi <@U999>"`. -/
theorem claim_C8_mention_substitution :
    (replace_mentions_with_names "<@U123> hi <@U999>" [("U123", "Alice")] =
      "@Alice hi <@U999>") ∧
    (∀ (text : String) (user_map : List (String × String)),
      (∀ uid ∈ findMentions text.data, lookupName user_map uid = none) →
      replace_mentions_with_names text user_map = text) ∧
    (∀ (uid name : String) (user_map : List (String × String)),
      uid.data ≠ [] → (∀ c ∈ uid.data, isMentionChar c) →
      lookupName user_map uid = some name →
      replace_mentions_with_names ("<@" ++ uid ++ ">") user_map = "@" ++ name) := by
  refine ⟨by decide, ?_, ?_⟩
  · intro text user_map h
    unfold replace_mentions_with_names
    exact replace_fold_absent user_map (findMentions text.data) text h
  · intro uid name user_map hne hall hlook
    unfold replace_mentions_with_names
    have hdata : ("<@" ++ uid ++ ">").data = '<' :: '@' :: (uid.data ++ ['>']) := by
      simp [String.data_append]
    rw [hdata, findMentions_single uid hne hall]
    simp only [List.foldl_cons, List.foldl_nil, hlook]
    rw [replaceAllL_self _ _ (by simp [hdata])]

/-- C8 witness: the untouched clause on a text whose only mention is unknown,
and the single-mention clause at a concrete id and map. -/
theorem claim_C8_mention_substitution_witness :
    replace_mentions_with_names "<@U777> yo" [("U123", "Alice")] = "<@U777> yo" ∧
    replace_mentions_with_names ("<@" ++ "U42" ++ ">") [("U42", "Zoe")] = "@" ++ "Zoe" :=
  ⟨claim_C8_mention_substitution.2.1 "<@U777> yo" [("U123", "Alice")] (by decide),
   claim_C8_mention_substitution.2.2 "U42" "Zoe" [("U42", "Zoe")] (by decide) (by decide)
     rfl⟩

/-- C9: every id the scanner returns consists only of `[A-Z0-9]` characters,
so a mention with a lowercase character is never substituted: concretely
`"<@u123abc>"` is left verbatim even though `u123abc` is a key of the map. -/
theorem claim_C9_mention_charset :
    (∀ (l : List Char) (m : String), m ∈ findMentions l → ∀ c ∈ m.data, isMentionChar c) ∧
    (replace_mentions_with_names "<@u123abc> hi" [("u123abc", "Bob")] =
      "<@u123abc> hi") := by
  constructor
  · intro l
    induction l using findMentions.induct with
    | case1 =>
      intro m hm
      exact absurd hm (by simp [findMentions])
    | case2 rest2 tail hdw hte ih =>
      intro m hm c hc
      have hred : findMentions ('<' :: '@' :: rest2) = findMentions ('@' :: rest2) := by
        rw [findMentions_eq_match, hdw]
        exact if_pos hte
      rw [hred] at hm
      exact ih m hm c hc
    | case3 rest2 tail hdw hte ih =>
      intro m hm c hc
      have hred : findMentions ('<' :: '@' :: rest2) =
          String.mk (rest2.takeWhile isMentionChar) :: findMentions rest2 := by
        rw [findMentions_eq_match, hdw]
        exact if_neg hte
      rw [hred] at hm
      rcases List.mem_cons.mp hm with h | h
      · subst h
        exact List.mem_takeWhile_imp (show c ∈ rest2.takeWhile isMentionChar from hc)
      · exact ih m h c hc
    | case4 rest2 hnd ih =>
      intro m hm c hc
      have hred : findMentions ('<' :: '@' :: rest2) = findMentions ('@' :: rest2) := by
        rw [findMentions_eq_match]
        split
        · rename_i tail heq
          exact (hnd tail heq).elim
        · rfl
      rw [hred] at hm
      exact ih m hm c hc
    | case5 head rest hx ih =>
      intro m hm c hc
      rw [findMentions_cons_ne head rest hx] at hm
      exact ih m hm c hc
  · decide

/-- C9 witness: the charset clause applied to the concrete mention found in
`"<@U1>"`. -/
theorem claim_C9_mention_charset_witness : isMentionChar '1' = true :=
  claim_C9_mention_charset.1 "<@U1>".data "U1" (by decide) '1' (by decide)

/-! ### C7: monotonicity of `convert_date_to_ts` -/

/-- No month has more than 31 days. -/
theorem daysInMonth_le_31 (leap : Bool) (m : Nat) : daysInMonth leap m ≤ 31 := by
  cases leap <;>
    rcases m with _ | _ | _ | _ | _ | _ | _ | _ | _ | _ | _ | _ | _ | m <;>
    simp [daysInMonth]

/-- A whole earlier month fits before the start of a later month. -/
theorem dbm_fits (leap : Bool) : ∀ m1 < 13, ∀ m2 < 13, 1 ≤ m1 → m1 < m2 →
    daysBeforeMonth leap m1 + daysInMonth leap m1 ≤ daysBeforeMonth leap m2 := by
  cases leap <;> decide

/-- Any valid day-of-year is at most the length of the year. -/
theorem dbm_day_bound (leap : Bool) : ∀ m < 13, ∀ d < 32, 1 ≤ m → 1 ≤ d →
    d ≤ daysInMonth leap m →
    daysBeforeMonth leap m + d ≤ 365 + (if leap then 1 else 0) := by
  cases leap <;> decide

/-- The day count before year `y + 1` exceeds the one before year `y` by the
length of year `y`. -/
theorem yearDays_succ (y : Nat) (hy : 1 ≤ y) :
    yearDays (y + 1) = yearDays y + 365 + (if isLeap y then 1 else 0) := by
  obtain ⟨n, rfl⟩ : ∃ n, y = n + 1 := ⟨y - 1, by omega⟩
  unfold yearDays isLeap
  simp only [Nat.add_sub_cancel, Nat.succ_div, Bool.or_eq_true, Bool.and_eq_true,
    beq_iff_eq, bne_iff_ne, ne_eq]
  split_ifs <;> omega

/-- `yearDays` is monotone. -/
theorem yearDays_mono (a : Nat) : ∀ b : Nat, a ≤ b → yearDays a ≤ yearDays b := by
  intro b
  induction b with
  | zero =>
    intro h
    have : a = 0 := by omega
    subst this
    exact Nat.le_refl _
  | succ b ih =>
    intro h
    rcases Nat.lt_or_ge a (b + 1) with h1 | h2
    · have hab := ih (by omega)
      rcases Nat.eq_zero_or_pos b with hb | hb
      · subst hb
        have : a = 0 := by omega
        subst this
        decide
      · have hstep := yearDays_succ b hb
        split_ifs at hstep <;> omega
    · have : a = b + 1 := by omega
      subst this
      exact Nat.le_refl _

/-- Strictly later years start at least a full year of days later. -/
theorem yearDays_gap (a b : Nat) (ha : 1 ≤ a) (hab : a < b) :
    yearDays a + 365 + (if isLeap a then 1 else 0) ≤ yearDays b := by
  have h1 := yearDays_succ a ha
  have h2 := yearDays_mono (a + 1) b (by omega)
  split_ifs at * <;> omega

/-- Strict monotonicity of the day ordinal over valid dates. -/
theorem toOrdinal_lt (y1 m1 d1 y2 m2 d2 : Nat)
    (hp : validDate (y1, m1, d1)) (hq : validDate (y2, m2, d2))
    (hlt : dateEarlier (y1, m1, d1) (y2, m2, d2)) :
    toOrdinal y1 m1 d1 < toOrdinal y2 m2 d2 := by
  obtain ⟨hy1, hm1, hm1b, hd1, hd1b⟩ := hp
  obtain ⟨hy2, hm2, hm2b, hd2, hd2b⟩ := hq
  simp only at hy1 hm1 hm1b hd1 hd1b hy2 hm2 hm2b hd2 hd2b
  unfold toOrdinal
  rcases hlt with hy | ⟨hyeq, hm | ⟨hmeq, hd⟩⟩
  · simp only at hy
    have h31 := daysInMonth_le_31 (isLeap y1) m1
    have hb1 := dbm_day_bound (isLeap y1) m1 (by omega) d1 (by omega) (by omega) (by omega)
      hd1b
    have hg := yearDays_gap y1 y2 (by omega) hy
    cases hL : isLeap y1 <;> simp [hL] at hb1 hg <;> omega
  · simp only at hyeq hm
    subst hyeq
    have hf := dbm_fits (isLeap y1) m1 (by omega) m2 (by omega) (by omega) hm
    omega
  · simp only at hyeq hmeq hd
    subst hyeq
    subst hmeq
    omega

/-- Every triple `parseDate` returns is a valid calendar date. -/
theorem parseDate_valid (s : String) (p : Nat × Nat × Nat)
    (h : parseDate s = some p) : validDate p := by
  unfold parseDate at h
  split at h
  · split at h
    · split at h
      · split at h
        · rename_i hcond
          injection h with h1
          subst h1
          exact hcond.1
        · exact absurd h (by simp)
      all_goals exact absurd h (by simp)
    · exact absurd h (by simp)
  · exact absurd h (by simp)

/-- C7: `convert_date_to_ts` is monotone: whenever two strings parse to valid
dates with the first strictly earlier on the calendar, both convert and the
first timestamp is strictly smaller. -/
theorem claim_C7_date_monotonic (tzShift : Int) (s1 s2 : String)
    (p1 p2 : Nat × Nat × Nat)
    (h1 : parseDate s1 = some p1) (h2 : parseDate s2 = some p2)
    (hlt : dateEarlier p1 p2) :
    ∃ t1 t2 : Int,
      convert_date_to_ts tzShift (some s1) = some (some t1) ∧
      convert_date_to_ts tzShift (some s2) = some (some t2) ∧
      t1 < t2 := by
  obtain ⟨y1, m1, d1⟩ := p1
  obtain ⟨y2, m2, d2⟩ := p2
  have hv1 := parseDate_valid s1 _ h1
  have hv2 := parseDate_valid s2 _ h2
  have hpe : parseDate "" = none := by decide
  have hne1 : s1 ≠ "" := by
    intro he
    rw [he, hpe] at h1
    exact Option.noConfusion h1
  have hne2 : s2 ≠ "" := by
    intro he
    rw [he, hpe] at h2
    exact Option.noConfusion h2
  refine ⟨dateTimestamp tzShift y1 m1 d1, dateTimestamp tzShift y2 m2 d2, ?_, ?_, ?_⟩
  · have hred : convert_date_to_ts tzShift (some s1) =
        if s1 = "" then some none
        else
          match parseDate s1 with
          | none => none
          | some (y, m, d) => some (some (dateTimestamp tzShift y m d)) := rfl
    rw [hred, if_neg hne1, h1]
  · have hred : convert_date_to_ts tzShift (some s2) =
        if s2 = "" then some none
        else
          match parseDate s2 with
          | none => none
          | some (y, m, d) => some (some (dateTimestamp tzShift y m d)) := rfl
    rw [hred, if_neg hne2, h2]
  · have hord := toOrdinal_lt y1 m1 d1 y2 m2 d2 hv1 hv2 hlt
    unfold dateTimestamp
    have : (toOrdinal y1 m1 d1 : Int) < (toOrdinal y2 m2 d2 : Int) := by
      exact_mod_cast hord
    omega

/-- C7 witness: the monotonicity theorem applied to the concrete pair
`2024-02-29 < 2024-03-01` at offset 3600. -/
theorem claim_C7_date_monotonic_witness :
    ∃ t1 t2 : Int,
      convert_date_to_ts 3600 (some "2024-02-29") = some (some t1) ∧
      convert_date_to_ts 3600 (some "2024-03-01") = some (some t2) ∧
      t1 < t2 :=
  claim_C7_date_monotonic 3600 "2024-02-29" "2024-03-01" (2024, 2, 29) (2024, 3, 1)
    (by decide) (by decide) (by decide)

end SlackDownloader
